import Mathlib

/-!
Shallow embedding of `src/ftpcmd.py` (class `FTPClient` and `main`), the
resumable-FTP-transfer tool, together with theorems settling the frozen
claims about its specification.

The FTP wire protocol and the local filesystem are collaborators: they are
modelled as explicit environment records (query results, raised-exception
flags, byte counts) consumed by the embedded control flow, which is
translated line by line from the Python source.
-/

namespace Ftpcmd

/-- Python file-open modes used by the code: `'ab'` (append) and `'wb'`
(truncate/create). -/
inductive FileMode where
  | ab : FileMode
  | wb : FileMode
deriving DecidableEq, Repr

/-! ## `FTPClient.upload_file` (ftpcmd.py lines 102-162)

Environment of one call: the local-file facts, the result of the
`ftp.size` query (`none` models a raised exception, per the bare `except`
at line 126), whether `remote_file` has a nonempty `os.path.dirname`,
the result of `ensure_remote_directory`, and whether `storbinary`
completes without raising.  `storbinary` reads the seeked local file in
8192-byte chunks until EOF, so on normal completion it sends exactly
`file_size - start_pos` bytes; on an exception it has sent some prefix
(`storPartial`, clipped to the remainder). -/
structure UploadEnv where
  localIsFile : Bool
  fileSize : Nat
  sizeQuery : Option Nat
  hasRemoteDir : Bool
  ensureOk : Bool
  storOk : Bool
  storPartial : Nat
deriving DecidableEq, Repr

/-- Observable outcome of one `upload_file` call. `seekPos` is the file
position after the optional `f.seek(start_pos)`; `storOffset` is the
`rest=start_pos` argument if `storbinary` was invoked. -/
structure UploadOut where
  success : Bool
  opened : Bool
  seekPos : Nat
  storOffset : Option Nat
  bytesSent : Nat
deriving DecidableEq, Repr

/-- `FTPClient.upload_file`.  Mirrors the source: fail unless the local
path is a regular file; `remote_size := ftp.size(remote_file)` with any
exception giving 0; resume (seek and `rest=remote_size`) exactly when
`remote_size > 0 and remote_size < file_size`; ensure the remote parent
directory when `dirname` is nonempty, failing the call if that fails;
then open `'rb'`, seek when `start_pos > 0`, and call `storbinary` with
`rest=start_pos`.  (The code also computes a `mode` string here but never
uses it.)  Any exception propagates to the outer handler, which returns
`False`. -/
def upload_file (e : UploadEnv) : UploadOut :=
  if ¬ e.localIsFile then ⟨false, false, 0, none, 0⟩
  else
    let remote_size := e.sizeQuery.getD 0
    let start_pos := if remote_size > 0 ∧ remote_size < e.fileSize then remote_size else 0
    if e.hasRemoteDir ∧ ¬ e.ensureOk then ⟨false, false, 0, none, 0⟩
    else if e.storOk then
      ⟨true, true, start_pos, some start_pos, e.fileSize - start_pos⟩
    else
      ⟨false, true, start_pos, some start_pos, min e.storPartial (e.fileSize - start_pos)⟩

/-! ## `FTPClient.download_file` (ftpcmd.py lines 205-277)

Environment: the `ftp.size(remote_file)` result (`none` models either a
raised exception or a `None` return, both of which the code turns into an
immediate failure); existence/regular-file/size facts for `local_file`
and, in case that path is a directory, for the redirected target
`local_file/basename(remote_file)`; whether `open(local_file, mode)`
succeeds; and the behaviour of `retrbinary` (the byte count the server
delivers, and whether the call completes without raising). -/
structure DownloadEnv where
  sizeQuery : Option Nat
  localExists : Bool
  localIsFile : Bool
  localSize : Nat
  redirExists : Bool
  redirIsFile : Bool
  redirSize : Nat
  openOk : Bool
  retrBytes : Nat
  retrOk : Bool
deriving DecidableEq, Repr

/-- Observable outcome of one `download_file` call.  `transferred` records
whether `retrbinary` was invoked; `mode` is the open mode if `open` was
attempted; `retrOffset` is the `rest=start_pos` argument; `bytesWritten`
is the number of bytes the callback wrote into the local file. -/
structure DownloadOut where
  success : Bool
  transferred : Bool
  mode : Option FileMode
  retrOffset : Option Nat
  bytesWritten : Nat
deriving DecidableEq, Repr

/-- Shared tail of `download_file` once `(mode, start_pos)` is chosen:
`mkdir` the parent, open the local file, and run `retrbinary` with
`rest=start_pos`.  Success is exactly "retrbinary did not raise"; the
code performs no byte-count check afterwards. -/
def download_transfer (e : DownloadEnv) (mode : FileMode) (start_pos : Nat) : DownloadOut :=
  if ¬ e.openOk then ⟨false, false, some mode, none, 0⟩
  else ⟨e.retrOk, true, some mode, some start_pos, e.retrBytes⟩

/-- `FTPClient.download_file`.  Mirrors the source: fail when the size
query fails; when `local_file` exists as a regular file compare sizes
(equal → immediate success with no transfer; smaller → `'ab'` at
`local_size`; larger → `'wb'` at 0); when `local_file` is a directory,
redirect to `local_file/basename(remote_file)` and redo the same
comparison on the redirected path (absent or non-file → `'wb'` at 0);
when `local_file` does not exist → `'wb'` at 0. -/
def download_file (e : DownloadEnv) : DownloadOut :=
  match e.sizeQuery with
  | none => ⟨false, false, none, none, 0⟩
  | some remote_size =>
    if e.localExists then
      if e.localIsFile then
        if e.localSize = remote_size then ⟨true, false, none, none, 0⟩
        else if e.localSize < remote_size then download_transfer e .ab e.localSize
        else download_transfer e .wb 0
      else
        if e.redirExists ∧ e.redirIsFile then
          if e.redirSize = remote_size then ⟨true, false, none, none, 0⟩
          else if e.redirSize < remote_size then download_transfer e .ab e.redirSize
          else download_transfer e .wb 0
        else download_transfer e .wb 0
    else download_transfer e .wb 0

/-- The size of the (possibly directory-redirected) local target, when
that target is an existing regular file; `none` when the effective target
is absent or not a regular file. -/
def effTarget (e : DownloadEnv) : Option Nat :=
  if e.localExists then
    if e.localIsFile then some e.localSize
    else if e.redirExists ∧ e.redirIsFile then some e.redirSize
    else none
  else none

/-! ### Claims C1, C2, C3 -/

/-- C1: for an `upload_file` call on a regular local file (with the
remote-parent preparation not failing, so that the transfer is actually
performed): if the queried remote size — any query failure counting as
0 — satisfies `0 < remoteSize < fileSize`, the local file is opened,
seeked to `remoteSize`, and the store is requested with `rest = remoteSize`;
in every other case the store is requested with `rest = 0` and no seek is
performed. -/
theorem C1_upload_resume_policy (e : UploadEnv)
    (hf : e.localIsFile = true)
    (he : e.hasRemoteDir = true → e.ensureOk = true) :
    (e.sizeQuery.getD 0 > 0 ∧ e.sizeQuery.getD 0 < e.fileSize →
       (upload_file e).opened = true ∧
       (upload_file e).seekPos = e.sizeQuery.getD 0 ∧
       (upload_file e).storOffset = some (e.sizeQuery.getD 0)) ∧
    (¬ (e.sizeQuery.getD 0 > 0 ∧ e.sizeQuery.getD 0 < e.fileSize) →
       (upload_file e).opened = true ∧
       (upload_file e).seekPos = 0 ∧
       (upload_file e).storOffset = some 0) := by
  have hcond : ¬ (e.hasRemoteDir = true ∧ e.ensureOk = false) := by
    rintro ⟨h1, h2⟩
    rw [he h1] at h2
    cases h2
  by_cases hs : e.storOk = true <;>
    by_cases hr : e.sizeQuery.getD 0 > 0 ∧ e.sizeQuery.getD 0 < e.fileSize <;>
      simp [upload_file, hf, hcond, hs, hr]

/-- Witness for C1 at a concrete call: local size 10, remote size 4. -/
theorem C1_upload_resume_policy_witness :
    (upload_file ⟨true, 10, some 4, true, true, true, 0⟩).seekPos = 4 ∧
    (upload_file ⟨true, 10, some 4, true, true, true, 0⟩).storOffset = some 4 :=
  ⟨((C1_upload_resume_policy ⟨true, 10, some 4, true, true, true, 0⟩ rfl
      (fun _ => rfl)).1 (by decide)).2.1,
   ((C1_upload_resume_policy ⟨true, 10, some 4, true, true, true, 0⟩ rfl
      (fun _ => rfl)).1 (by decide)).2.2⟩

/-- Branch structure of `download_file` once the size query has
succeeded, for an effective target that is an existing regular file of
size `ls`: the code compares `ls` to the remote size. -/
theorem download_file_eq_some (e : DownloadEnv) (rs ls : Nat)
    (hq : e.sizeQuery = some rs) (he : effTarget e = some ls) :
    download_file e =
      (if ls = rs then ⟨true, false, none, none, 0⟩
       else if ls < rs then download_transfer e FileMode.ab ls
       else download_transfer e FileMode.wb 0) := by
  unfold download_file
  unfold effTarget at he
  rw [hq]
  by_cases h1 : e.localExists = true
  · by_cases h2 : e.localIsFile = true
    · simp [h1, h2] at he ⊢
      rw [he]
    · by_cases h3 : e.redirExists = true ∧ e.redirIsFile = true
      · simp [h1, h2, h3] at he ⊢
        rw [he]
      · simp [h1, h2, h3] at he
  · simp [h1] at he

/-- Branch structure of `download_file` once the size query has
succeeded, for an absent (or non-regular-file) effective target: start
fresh at offset 0 with truncate/create. -/
theorem download_file_eq_none (e : DownloadEnv) (rs : Nat)
    (hq : e.sizeQuery = some rs) (he : effTarget e = none) :
    download_file e = download_transfer e FileMode.wb 0 := by
  unfold download_file
  unfold effTarget at he
  rw [hq]
  by_cases h1 : e.localExists = true
  · by_cases h2 : e.localIsFile = true
    · simp [h1, h2] at he
    · by_cases h3 : e.redirExists = true ∧ e.redirIsFile = true
      · simp [h1, h2, h3] at he
      · simp [h1, h2, h3]
  · simp [h1]

/-- Once the retrieval step is reached and actually invoked, the reported
result of `download_file` is exactly "`retrbinary` did not raise". -/
theorem download_transfer_success (e : DownloadEnv) (m : FileMode) (sp : Nat)
    (h : (download_transfer e m sp).transferred = true) :
    (download_transfer e m sp).success = e.retrOk := by
  unfold download_transfer at h ⊢
  by_cases ho : e.openOk = true <;> simp [ho] at h ⊢

/-- C2 counterexample: the claim "`download_file` returns success only if
bytes received plus starting offset equals the remote size" is false.
Remote size 10, no local file, the server delivers 5 bytes and the
retrieval completes without raising: the call returns success although
`5 + 0 ≠ 10`.  The code never compares the received byte count with
`remote_size` (which is used only for the progress percentage). -/
theorem C2_completion_check_counterexample :
    (download_file ⟨some 10, false, false, 0, false, false, 0, true, 5, true⟩).success = true ∧
    (download_file ⟨some 10, false, false, 0, false, false, 0, true, 5, true⟩).retrOffset = some 0 ∧
    (download_file ⟨some 10, false, false, 0, false, false, 0, true, 5, true⟩).bytesWritten + 0 ≠ 10 := by
  decide

/-- C2 amended: on upload, success does imply starting offset plus bytes
sent equals `fileSize` — not because of an explicit check, but because
`storbinary` streams the seeked local file to EOF and any transfer error
raises, which is reported as failure.  On download there is no completion
check at all: once the retrieval is invoked, success is exactly
"`retrbinary` did not raise", independent of the received byte count. -/
theorem C2_transfer_completion_amended :
    (∀ e : UploadEnv, (upload_file e).success = true →
       (upload_file e).seekPos + (upload_file e).bytesSent = e.fileSize) ∧
    (∀ e : DownloadEnv, (download_file e).transferred = true →
       (download_file e).success = e.retrOk) := by
  constructor
  · intro e h
    by_cases hf : e.localIsFile = true <;>
      by_cases hc : e.hasRemoteDir = true ∧ e.ensureOk = false <;>
        by_cases hs : e.storOk = true <;>
          by_cases hr : e.sizeQuery.getD 0 > 0 ∧ e.sizeQuery.getD 0 < e.fileSize <;>
            (simp [upload_file, hf, hc, hs, hr] at h ⊢; try omega)
  · intro e h
    rcases hq : e.sizeQuery with _ | rs
    · unfold download_file at h
      rw [hq] at h
      simp at h
    · rcases he : effTarget e with _ | ls
      · rw [download_file_eq_none e rs hq he] at h ⊢
        exact download_transfer_success e FileMode.wb 0 h
      · rw [download_file_eq_some e rs ls hq he] at h ⊢
        by_cases heq : ls = rs
        · rw [if_pos heq] at h
          simp at h
        · rw [if_neg heq] at h ⊢
          by_cases hlt : ls < rs
          · rw [if_pos hlt] at h ⊢
            exact download_transfer_success e FileMode.ab ls h
          · rw [if_neg hlt] at h ⊢
            exact download_transfer_success e FileMode.wb 0 h

/-- Witness for C2 amended, at a concrete upload (size 10, resuming at 4,
store completes: `4 + 6 = 10`) and a concrete download (retrieval invoked
and completing without raising: success). -/
theorem C2_transfer_completion_amended_witness :
    (upload_file ⟨true, 10, some 4, false, true, true, 0⟩).seekPos +
      (upload_file ⟨true, 10, some 4, false, true, true, 0⟩).bytesSent = 10 ∧
    (download_file ⟨some 10, false, false, 0, false, false, 0, true, 10, true⟩).success = true :=
  ⟨C2_transfer_completion_amended.1 ⟨true, 10, some 4, false, true, true, 0⟩ rfl,
   C2_transfer_completion_amended.2 ⟨some 10, false, false, 0, false, false, 0, true, 10, true⟩ rfl⟩

/-- C3: for a `download_file` call whose size query succeeds with
`remoteSize` and whose open (when reached) does not fail: when the
possibly directory-redirected local target is an existing regular file of
size `ls`, equality of sizes gives immediate success with no data
transfer, `ls < remoteSize` opens in append mode and requests retrieval
from offset `ls`, and `ls > remoteSize` starts fresh (`'wb'`, offset 0);
when the effective target is absent (or not a regular file) the transfer
also starts fresh at offset 0. -/
theorem C3_download_resume_policy (e : DownloadEnv) (rs : Nat)
    (hq : e.sizeQuery = some rs) (ho : e.openOk = true) :
    (∀ ls, effTarget e = some ls →
       (ls = rs → (download_file e).success = true ∧
          (download_file e).transferred = false ∧ (download_file e).bytesWritten = 0) ∧
       (ls < rs → (download_file e).mode = some FileMode.ab ∧
          (download_file e).retrOffset = some ls) ∧
       (rs < ls → (download_file e).mode = some FileMode.wb ∧
          (download_file e).retrOffset = some 0)) ∧
    (effTarget e = none → (download_file e).mode = some FileMode.wb ∧
       (download_file e).retrOffset = some 0) := by
  constructor
  · intro ls hls
    rw [download_file_eq_some e rs ls hq hls]
    refine ⟨fun heq => ?_, fun hlt => ?_, fun hgt => ?_⟩
    · rw [if_pos heq]
      exact ⟨rfl, rfl, rfl⟩
    · rw [if_neg (by omega), if_pos hlt]
      simp [download_transfer, ho]
    · rw [if_neg (by omega), if_neg (by omega)]
      simp [download_transfer, ho]
  · intro hn
    rw [download_file_eq_none e rs hq hn]
    simp [download_transfer, ho]

/-- Witness for C3 at a concrete call: remote size 10, local file present
with 10 bytes — immediate success, zero transfer. -/
theorem C3_download_resume_policy_witness :
    (download_file ⟨some 10, true, true, 10, false, false, 0, true, 0, true⟩).success = true ∧
    (download_file ⟨some 10, true, true, 10, false, false, 0, true, 0, true⟩).transferred = false :=
  ⟨(((C3_download_resume_policy ⟨some 10, true, true, 10, false, false, 0, true, 0, true⟩
       10 rfl rfl).1 10 rfl).1 rfl).1,
   (((C3_download_resume_policy ⟨some 10, true, true, 10, false, false, 0, true, 0, true⟩
       10 rfl rfl).1 10 rfl).1 rfl).2.1⟩

/-! ## `FTPClient.ensure_remote_directory` (ftpcmd.py lines 76-100)

The remote filesystem is modelled as the list of existing directories,
each an absolute path given by its segment list (the root `[]` always
exists, and `ftp.cwd('/')` always succeeds on a live connection).
`ftp.cwd(seg)` relative to the current directory `cur` succeeds iff
`cur ++ [seg]` exists; `ftp.mkd(seg)` succeeds iff the environment
predicate `mkdOk` allows creating that path (permission model), in which
case the directory is added.  A failed `mkd` raises, and the outer
handler returns `False` with all directories created so far kept. -/

/-- Python's `str.split(sep)` over the character list: every occurrence
of `sep` is a cut point and empty pieces are kept (`''.split('/') ==
['']`, `'/a/b'.split('/') == ['', 'a', 'b']`). -/
def splitOnChar (sep : Char) : List Char → List (List Char)
  | [] => [[]]
  | c :: cs =>
    let r := splitOnChar sep cs
    if c = sep then [] :: r
    else
      match r with
      | [] => [[c]]
      | p :: ps => (c :: p) :: ps

/-- `remote_path.split('/')` keeping only nonempty segments, as in
`[d for d in remote_path.split('/') if d]`. -/
def splitPath (s : String) : List String :=
  ((splitOnChar '/' s.data).map (fun cs => String.mk cs)).filter (fun d => d ≠ "")

/-- The per-segment loop of `ensure_remote_directory`: `cur` is the
connection's current working directory.  Returns (result, directories
after the call, number of `mkd` calls performed). -/
def ensureSegs (mkdOk : List String → Bool) :
    List (List String) → List String → List String → Bool × List (List String) × Nat
  | fs, _, [] => (true, fs, 0)
  | fs, cur, seg :: rest =>
    let next := cur ++ [seg]
    if next ∈ fs then ensureSegs mkdOk fs next rest
    else if mkdOk next then
      match ensureSegs mkdOk (next :: fs) next rest with
      | (b, fs1, n) => (b, fs1, n + 1)
    else (false, fs, 0)

/-- `FTPClient.ensure_remote_directory`: cwd to the root, then walk the
nonempty segments of `remote_path`, changing into each and creating the
ones that do not exist. -/
def ensure_remote_directory (mkdOk : List String → Bool)
    (fs : List (List String)) (remote_path : String) :
    Bool × List (List String) × Nat :=
  ensureSegs mkdOk fs [] (splitPath remote_path)

/-- Directories are never removed by `ensureSegs`. -/
theorem ensureSegs_mono (mkdOk : List String → Bool) :
    ∀ (segs : List String) (fs : List (List String)) (cur : List String)
      (b : Bool) (fs1 : List (List String)) (n : Nat),
      ensureSegs mkdOk fs cur segs = (b, fs1, n) →
      ∀ p, p ∈ fs → p ∈ fs1 := by
  intro segs
  induction segs with
  | nil =>
    intro fs cur b fs1 n h p hp
    simp only [ensureSegs] at h
    cases h
    exact hp
  | cons seg rest ih =>
    intro fs cur b fs1 n h p hp
    simp only [ensureSegs] at h
    by_cases hmem : cur ++ [seg] ∈ fs
    · rw [if_pos hmem] at h
      exact ih fs (cur ++ [seg]) b fs1 n h p hp
    · rw [if_neg hmem] at h
      by_cases hmk : mkdOk (cur ++ [seg]) = true
      · rw [if_pos hmk] at h
        rcases h2 : ensureSegs mkdOk ((cur ++ [seg]) :: fs) (cur ++ [seg]) rest with ⟨b2, fs2, n2⟩
        rw [h2] at h
        cases h
        exact ih ((cur ++ [seg]) :: fs) (cur ++ [seg]) b2 fs2 n2 h2 p (List.mem_cons_of_mem _ hp)
      · rw [if_neg hmk] at h
        cases h
        exact hp

/-- A successful `ensureSegs` run is idempotent: re-running it over the
resulting directory list succeeds again, changes nothing, and performs no
`mkd` call. -/
theorem ensureSegs_idem (mkdOk : List String → Bool) :
    ∀ (segs : List String) (fs : List (List String)) (cur : List String)
      (fs1 : List (List String)) (n : Nat),
      ensureSegs mkdOk fs cur segs = (true, fs1, n) →
      ensureSegs mkdOk fs1 cur segs = (true, fs1, 0) := by
  intro segs
  induction segs with
  | nil =>
    intro fs cur fs1 n _
    simp only [ensureSegs]
  | cons seg rest ih =>
    intro fs cur fs1 n h
    simp only [ensureSegs] at h ⊢
    by_cases hmem : cur ++ [seg] ∈ fs
    · rw [if_pos hmem] at h
      have hmem1 : cur ++ [seg] ∈ fs1 :=
        ensureSegs_mono mkdOk rest fs (cur ++ [seg]) true fs1 n h _ hmem
      rw [if_pos hmem1]
      exact ih fs (cur ++ [seg]) fs1 n h
    · rw [if_neg hmem] at h
      by_cases hmk : mkdOk (cur ++ [seg]) = true
      · rw [if_pos hmk] at h
        rcases h2 : ensureSegs mkdOk ((cur ++ [seg]) :: fs) (cur ++ [seg]) rest with ⟨b2, fs2, n2⟩
        rw [h2] at h
        cases h
        have hmem1 : cur ++ [seg] ∈ fs2 :=
          ensureSegs_mono mkdOk rest ((cur ++ [seg]) :: fs) (cur ++ [seg]) true fs2 n2 h2 _
            (List.mem_cons_self _ _)
        rw [if_pos hmem1]
        exact ih ((cur ++ [seg]) :: fs) (cur ++ [seg]) fs2 n2 h2
      · rw [if_neg hmk] at h
        cases h

/-- C7: `ensure_remote_directory` is idempotent.  If one call on `path`
succeeds, producing the directory list `fs1`, then a second call with the
same path succeeds, performs zero `mkd` (creation) calls — every
per-segment `cwd` succeeds, so the creating branch is never taken — and
leaves the remote directory structure `fs1` unchanged. -/
theorem C7_ensure_directory_idempotent (mkdOk : List String → Bool)
    (fs : List (List String)) (path : String)
    (fs1 : List (List String)) (n : Nat)
    (h : ensure_remote_directory mkdOk fs path = (true, fs1, n)) :
    ensure_remote_directory mkdOk fs1 path = (true, fs1, 0) := by
  unfold ensure_remote_directory at h ⊢
  exact ensureSegs_idem mkdOk (splitPath path) fs [] fs1 n h

/-- Witness for C7 at a concrete call: creating `/a/b` on an empty server
(all creations permitted) succeeds with two `mkd` calls, and the theorem
gives the second call: success, unchanged structure, zero `mkd` calls. -/
theorem C7_ensure_directory_idempotent_witness :
    ensure_remote_directory (fun _ => true) [["a", "b"], ["a"]] "/a/b" =
      (true, [["a", "b"], ["a"]], 0) :=
  C7_ensure_directory_idempotent (fun _ => true) [] "/a/b" [["a", "b"], ["a"]] 2 (by decide)

/-! ## Listing-line parsing (ftpcmd.py lines 179-193 and 371-381)

Both `list_directory` and `download_directory.download_recursive` parse a
raw `LIST` line with the same token logic: `item.split()`, discard lines
with fewer than 3 tokens, `parts[0].startswith('d')` (guarded by
`if parts[0]`), filename `' '.join(parts[8:])` when 9+ tokens exist, else
`parts[-1]`, and skip `.` / `..`. -/

/-- Split a character list at every character satisfying `p`, keeping
empty pieces (the generalization of `splitOnChar`). -/
def splitOnPred (p : Char → Bool) : List Char → List (List Char)
  | [] => [[]]
  | c :: cs =>
    let r := splitOnPred p cs
    if p c then [] :: r
    else
      match r with
      | [] => [[c]]
      | q :: qs => (c :: q) :: qs

/-- Python's string whitespace characters (the ASCII ones: space, tab,
newline, carriage return, vertical tab, form feed). -/
def isPySpace (c : Char) : Bool :=
  c == ' ' || c == '\t' || c == '\n' || c == '\r' || c == '\x0b' || c == '\x0c'

/-- Python's no-argument `str.split()`: split on whitespace runs,
discarding empty pieces. -/
def pySplitWs (s : String) : List String :=
  ((splitOnPred isPySpace s.data).map (fun cs => String.mk cs)).filter (fun d => d ≠ "")

/-- Python's `s.startswith(c)` for a one-character prefix: `s` is
nonempty and its first character is `c`. -/
def pyStartsWith (s : String) (c : Char) : Bool :=
  match s.data with
  | [] => false
  | a :: _ => a == c

/-- One parsed listing entry (the spec's DirectoryEntry, without the
size/time fields, which only `list_directory`'s printing uses). -/
structure DirEntry where
  name : String
  isDir : Bool
deriving DecidableEq, Repr

/-- The listing-line parser as written in the source (`none` = the line
is discarded or the entry is skipped). -/
def parseListLine (line : String) : Option DirEntry :=
  let parts := pySplitWs line
  if parts.length < 3 then none
  else
    let is_dir := if parts.headD "" ≠ "" then pyStartsWith (parts.headD "") 'd' else false
    let filename :=
      if parts.length ≥ 9 then String.intercalate " " (parts.drop 8)
      else parts.getLastD ""
    if filename = "." ∨ filename = ".." then none
    else some ⟨filename, is_dir⟩

/-- The reference parser, following the claim's words: split on
whitespace; fewer than 3 tokens → discard; directory iff the first
token's first character is `'d'`; filename = tokens 9 onward rejoined
with single spaces when at least 9 tokens exist, otherwise the last
token; skip names `.` and `..`. -/
def refParseListLine (line : String) : Option DirEntry :=
  let toks := pySplitWs line
  if toks.length < 3 then none
  else
    let dirFlag :=
      match (toks.headD "").data with
      | [] => false
      | c :: _ => c == 'd'
    let nm :=
      if 9 ≤ toks.length then String.intercalate " " (toks.drop 8)
      else toks.getLastD ""
    if nm = "." ∨ nm = ".." then none
    else some ⟨nm, dirFlag⟩

/-- The source's guarded `startswith` test agrees with "first character
is `'d'`" (on the empty token both give `false`). -/
theorem startsWith_head (s : String) :
    (if s ≠ "" then pyStartsWith s 'd' else false) =
      (match s.data with
       | [] => false
       | c :: _ => c == 'd') := by
  by_cases h : s = ""
  · subst h
    rfl
  · rw [if_pos h]
    rfl

/-- C8: on every raw listing line the source parser behaves exactly as
the reference definition built from the claim's words. -/
theorem C8_list_line_parser_refines (line : String) :
    parseListLine line = refParseListLine line := by
  unfold parseListLine refParseListLine
  simp only [startsWith_head]

/-! ## `FTPClient.upload_directory` (ftpcmd.py lines 279-328)

The local tree walked by `os.walk` is modelled as a tree whose file
nodes carry the result of the `upload_file` call for that file and whose
directory nodes carry the result of the (discarded) per-subdirectory
`ensure_remote_directory` call.  `os.walk` visits every directory and
every file regardless of those results; `ensure_remote_directory` and
`upload_file` both swallow their exceptions, so no walk step raises. -/

mutual
inductive LTree where
  | file (name : String) (ok : Bool) : LTree
  | dir (name : String) (ensureOk : Bool) (children : LTreeList) : LTree
inductive LTreeList where
  | nil : LTreeList
  | cons (t : LTree) (ts : LTreeList) : LTreeList
end

mutual
/-- The `(success_count, total_count)` contribution of one entry of the
walk: each file increments `total_count` and, on upload success,
`success_count`; each directory contributes its children's tallies (the
`ensure_remote_directory` result at line 311 is discarded). -/
def walkTally : LTree → Nat × Nat
  | .file _ ok => (if ok then 1 else 0, 1)
  | .dir _ _ cs => walkTallyList cs
/-- Tally of a sibling list, in walk order. -/
def walkTallyList : LTreeList → Nat × Nat
  | .nil => (0, 0)
  | .cons t ts =>
    ((walkTally t).1 + (walkTallyList ts).1, (walkTally t).2 + (walkTallyList ts).2)
end

/-- `FTPClient.upload_directory`: fail when the local path is not a
directory, fail when ensuring the top-level remote directory fails,
otherwise walk the tree and return `success_count == total_count`. -/
def upload_directory (localIsDir ensureTopOk : Bool) (tree : LTreeList) : Bool :=
  if ¬ localIsDir then false
  else if ¬ ensureTopOk then false
  else decide ((walkTallyList tree).1 = (walkTallyList tree).2)

mutual
/-- Number of files in a local tree (the spec's N). -/
def countFiles : LTree → Nat
  | .file _ _ => 1
  | .dir _ _ cs => countFilesList cs
def countFilesList : LTreeList → Nat
  | .nil => 0
  | .cons t ts => countFiles t + countFilesList ts
end

mutual
/-- Number of files whose upload fails (the spec's K). -/
def countFailed : LTree → Nat
  | .file _ ok => if ok then 0 else 1
  | .dir _ _ cs => countFailedList cs
def countFailedList : LTreeList → Nat
  | .nil => 0
  | .cons t ts => countFailed t + countFailedList ts
end

mutual
theorem walkTally_eq (t : LTree) :
    (walkTally t).2 = countFiles t ∧
    (walkTally t).1 = countFiles t - countFailed t ∧
    countFailed t ≤ countFiles t := by
  cases t with
  | file n ok =>
    cases ok <;> simp [walkTally, countFiles, countFailed]
  | dir n e cs =>
    have h := walkTallyList_eq cs
    simpa [walkTally, countFiles, countFailed] using h
theorem walkTallyList_eq (ts : LTreeList) :
    (walkTallyList ts).2 = countFilesList ts ∧
    (walkTallyList ts).1 = countFilesList ts - countFailedList ts ∧
    countFailedList ts ≤ countFilesList ts := by
  cases ts with
  | nil => simp [walkTallyList, countFilesList, countFailedList]
  | cons t ts' =>
    obtain ⟨a1, a2, a3⟩ := walkTally_eq t
    obtain ⟨b1, b2, b3⟩ := walkTallyList_eq ts'
    simp only [walkTallyList, countFilesList, countFailedList]
    omega
end

/-- C4: walking a local tree with N files of which K uploads fail,
`total_count = N` (every file is counted once, failures do not stop the
walk), `success_count = N - K`, and `upload_directory` (with the local
directory present and the top-level remote directory ensured) returns
`success_count == total_count`, which holds exactly when `K = 0`; the
zero-file tree gives success. -/
theorem C4_upload_directory_tally (tree : LTreeList) :
    (walkTallyList tree).2 = countFilesList tree ∧
    (walkTallyList tree).1 = countFilesList tree - countFailedList tree ∧
    upload_directory true true tree =
      decide ((walkTallyList tree).1 = (walkTallyList tree).2) ∧
    upload_directory true true tree = decide (countFailedList tree = 0) ∧
    upload_directory true true LTreeList.nil = true := by
  obtain ⟨h1, h2, h3⟩ := walkTallyList_eq tree
  refine ⟨h1, h2, rfl, ?_, rfl⟩
  have hu : upload_directory true true tree =
      decide ((walkTallyList tree).1 = (walkTallyList tree).2) := rfl
  rw [hu, decide_eq_decide]
  omega

mutual
/-- Reassign every subdirectory's (discarded) `ensure_remote_directory`
result to `b`, leaving names and per-file upload results unchanged. -/
def setEnsure (b : Bool) : LTree → LTree
  | .file n ok => .file n ok
  | .dir n _ cs => .dir n b (setEnsureList b cs)
def setEnsureList (b : Bool) : LTreeList → LTreeList
  | .nil => .nil
  | .cons t ts => .cons (setEnsure b t) (setEnsureList b ts)
end

mutual
theorem walkTally_setEnsure (b : Bool) (t : LTree) :
    walkTally (setEnsure b t) = walkTally t := by
  cases t with
  | file n ok => rfl
  | dir n e cs =>
    have h := walkTallyList_setEnsure b cs
    simpa [setEnsure, walkTally] using h
theorem walkTallyList_setEnsure (b : Bool) (ts : LTreeList) :
    walkTallyList (setEnsureList b ts) = walkTallyList ts := by
  cases ts with
  | nil => rfl
  | cons t ts' =>
    have h1 := walkTally_setEnsure b t
    have h2 := walkTallyList_setEnsure b ts'
    simp [setEnsureList, walkTallyList, h1, h2]
end

/-- C10: the per-subdirectory `ensure_remote_directory` result is
discarded by the walk: forcing every subdirectory's ensure result to any
value `b` (in particular, all-failing) changes neither the tally nor the
boolean result of `upload_directory`; and concretely, a tree whose only
subdirectory has a failing ensure and no files, next to one succeeding
file, still uploads with overall success. -/
theorem C10_subdir_ensure_ignored (tree : LTreeList) (b : Bool) :
    walkTallyList (setEnsureList b tree) = walkTallyList tree ∧
    upload_directory true true (setEnsureList b tree) = upload_directory true true tree ∧
    upload_directory true true
      (LTreeList.cons (LTree.dir "sub" false LTreeList.nil)
        (LTreeList.cons (LTree.file "a.txt" true) LTreeList.nil)) = true := by
  have h := walkTallyList_setEnsure b tree
  refine ⟨h, ?_, by decide⟩
  unfold upload_directory
  rw [h]

/-! ## `FTPClient.download_directory` (ftpcmd.py lines 330-407)

The remote tree is modelled with already-parsed listing entries (the
line parser itself is verified separately against `parseListLine`).  A
`badDir` is a directory whose `cwd`/`LIST` inside `download_recursive`
raises: the recursion records the listing failure and returns without
descending (after the local `mkdir`, which precedes the `try`).  File
nodes carry the result of the `download_file` call. -/

mutual
inductive RTree where
  | file (name : String) (ok : Bool) : RTree
  | dir (name : String) (children : RTreeList) : RTree
  | badDir (name : String) : RTree
inductive RTreeList where
  | nil : RTreeList
  | cons (t : RTree) (ts : RTreeList) : RTreeList
end

/-- Observable outcome of a (sub)walk: the shared `success_count` /
`total_count` contributions and the local directories created, in
creation order. -/
structure WalkOut where
  succ : Nat
  total : Nat
  created : List String
deriving DecidableEq, Repr

mutual
/-- Effect of one listing entry processed by `download_recursive` at
recursion depth `depth` with local directory `ldir`: a file is counted
and downloaded; a directory entry spawns `download_recursive(child,
depth+1)`, which first checks `depth + 1 > max_depth` (and if so logs the
depth warning and returns before creating anything), then creates the
child local directory, then lists and processes the children — or, for a
`badDir`, fails the listing and returns with only the `mkdir` done. -/
def walkEntry (maxDepth depth : Nat) (ldir : String) : RTree → WalkOut
  | .file _ ok => ⟨if ok then 1 else 0, 1, []⟩
  | .dir name cs =>
    if depth + 1 > maxDepth then ⟨0, 0, []⟩
    else
      let child := ldir ++ "/" ++ name
      let w := walkEntries maxDepth (depth + 1) child cs
      ⟨w.succ, w.total, child :: w.created⟩
  | .badDir name =>
    if depth + 1 > maxDepth then ⟨0, 0, []⟩
    else ⟨0, 0, [ldir ++ "/" ++ name]⟩
/-- Effect of a listing, entry by entry in listing order. -/
def walkEntries (maxDepth depth : Nat) (ldir : String) : RTreeList → WalkOut
  | .nil => ⟨0, 0, []⟩
  | .cons t ts =>
    let w1 := walkEntry maxDepth depth ldir t
    let w2 := walkEntries maxDepth depth ldir ts
    ⟨w1.succ + w2.succ, w1.total + w2.total, w1.created ++ w2.created⟩
end

/-- State of the remote root for one `download_directory` call: the
initial `cwd(remote_dir)` fails (`noDir`); it succeeds but the
`cwd`/`LIST` inside the depth-0 recursion raises (`unlistable`); or the
root lists successfully (`listing`). -/
inductive RootState where
  | noDir : RootState
  | unlistable : RootState
  | listing (children : RTreeList) : RootState

/-- `FTPClient.download_directory`: if the initial `cwd(remote_dir)`
fails, return `True` immediately ("remote directory does not exist",
non-fatal) with nothing transferred; otherwise run
`download_recursive(remote_dir, local_dir, 0)` and return
`success_count == total_count`. -/
def download_directory (maxDepth : Nat) (ldir : String) : RootState → Bool × WalkOut
  | .noDir => (true, ⟨0, 0, []⟩)
  | .unlistable =>
    if 0 > maxDepth then (true, ⟨0, 0, []⟩)
    else (true, ⟨0, 0, [ldir]⟩)
  | .listing cs =>
    if 0 > maxDepth then (true, ⟨0, 0, []⟩)
    else
      let w := walkEntries maxDepth 0 ldir cs
      (decide (w.succ = w.total), ⟨w.succ, w.total, ldir :: w.created⟩)

mutual
/-- Truncate a listing entry to `k` remaining recursion levels: with no
budget left a directory entry (healthy or not) is dropped — the walk
into it does nothing at all — while files at the current level stay. -/
def truncEntry (k : Nat) : RTree → Option RTree
  | .file n ok => some (.file n ok)
  | .dir n cs =>
    match k with
    | 0 => none
    | k' + 1 => some (.dir n (truncEntries k' cs))
  | .badDir n =>
    match k with
    | 0 => none
    | _ + 1 => some (.badDir n)
/-- Truncate every entry of a listing to `k` remaining levels. -/
def truncEntries (k : Nat) : RTreeList → RTreeList
  | .nil => .nil
  | .cons t ts =>
    match truncEntry k t with
    | none => truncEntries k ts
    | some t' => .cons t' (truncEntries k ts)
end

/-- Walk of an optional (possibly truncated-away) entry. -/
def walkOptEntry (maxDepth depth : Nat) (ldir : String) : Option RTree → WalkOut
  | none => ⟨0, 0, []⟩
  | some t => walkEntry maxDepth depth ldir t

mutual
theorem walkEntry_trunc (t : RTree) (maxDepth depth : Nat) (ldir : String)
    (h : depth ≤ maxDepth) :
    walkOptEntry maxDepth depth ldir (truncEntry (maxDepth - depth) t) =
      walkEntry maxDepth depth ldir t := by
  cases t with
  | file n ok => rfl
  | dir n cs =>
    by_cases hd : depth = maxDepth
    · subst hd
      simp [truncEntry, walkOptEntry, walkEntry]
    · have hk : maxDepth - depth = (maxDepth - (depth + 1)) + 1 := by omega
      have hlt : ¬ depth + 1 > maxDepth := by omega
      have hrec := walkEntries_trunc cs maxDepth (depth + 1) (ldir ++ "/" ++ n) (by omega)
      simp [truncEntry, hk, walkOptEntry, walkEntry, hlt, hrec]
  | badDir n =>
    by_cases hd : depth = maxDepth
    · subst hd
      simp [truncEntry, walkOptEntry, walkEntry]
    · have hk : maxDepth - depth = (maxDepth - (depth + 1)) + 1 := by omega
      have hlt : ¬ depth + 1 > maxDepth := by omega
      simp [truncEntry, hk, walkOptEntry, walkEntry, hlt]
theorem walkEntries_trunc (ts : RTreeList) (maxDepth depth : Nat) (ldir : String)
    (h : depth ≤ maxDepth) :
    walkEntries maxDepth depth ldir (truncEntries (maxDepth - depth) ts) =
      walkEntries maxDepth depth ldir ts := by
  cases ts with
  | nil => rfl
  | cons t ts' =>
    have h1 := walkEntry_trunc t maxDepth depth ldir h
    have h2 := walkEntries_trunc ts' maxDepth depth ldir h
    cases he : truncEntry (maxDepth - depth) t with
    | none =>
      rw [he] at h1
      simp only [walkOptEntry] at h1
      simp only [truncEntries, he, walkEntries, h2, ← h1, Nat.zero_add, List.nil_append]
    | some t' =>
      rw [he] at h1
      simp only [walkOptEntry] at h1
      simp only [truncEntries, he, walkEntries, h2, h1]
end

mutual
/-- Every file of the (sub)tree downloads successfully. -/
def allOkEntry : RTree → Bool
  | .file _ ok => ok
  | .dir _ cs => allOkEntries cs
  | .badDir _ => true
def allOkEntries : RTreeList → Bool
  | .nil => true
  | .cons t ts => allOkEntry t && allOkEntries ts
end

mutual
theorem walkEntry_allOk (t : RTree) (maxDepth depth : Nat) (ldir : String)
    (h : allOkEntry t = true) :
    (walkEntry maxDepth depth ldir t).succ = (walkEntry maxDepth depth ldir t).total := by
  cases t with
  | file n ok =>
    simp only [allOkEntry] at h
    simp [walkEntry, h]
  | dir n cs =>
    simp only [allOkEntry] at h
    have hrec := walkEntries_allOk cs maxDepth (depth + 1) (ldir ++ "/" ++ n) h
    by_cases hlt : depth + 1 > maxDepth <;> simp [walkEntry, hlt, hrec]
  | badDir n =>
    by_cases hlt : depth + 1 > maxDepth <;> simp [walkEntry, hlt]
theorem walkEntries_allOk (ts : RTreeList) (maxDepth depth : Nat) (ldir : String)
    (h : allOkEntries ts = true) :
    (walkEntries maxDepth depth ldir ts).succ =
      (walkEntries maxDepth depth ldir ts).total := by
  cases ts with
  | nil => rfl
  | cons t ts' =>
    simp only [allOkEntries, Bool.and_eq_true] at h
    have h1 := walkEntry_allOk t maxDepth depth ldir h.1
    have h2 := walkEntries_allOk ts' maxDepth depth ldir h.2
    simp [walkEntries, h1, h2]
end

/-- C5: the recursive download walk is depth-bounded.  (i) A directory
entry whose recursion would reach `depth > maxDepth` is truncated: its
walk creates nothing, lists nothing and transfers nothing (and the same
for an unlistable directory).  (ii) The walk of any listing is fully
determined by the tree truncated to the remaining depth budget: entries
below the bound never influence counts or the created local mirror.
(iii) Truncation is not by itself a failure: if every file within the
depth bound succeeds, `download_directory` reports success, however deep
the remote tree is. -/
theorem C5_download_depth_bound (maxDepth depth : Nat) (ldir : String) (name : String)
    (cs ts : RTreeList) :
    (depth + 1 > maxDepth →
       walkEntry maxDepth depth ldir (RTree.dir name cs) = ⟨0, 0, []⟩ ∧
       walkEntry maxDepth depth ldir (RTree.badDir name) = ⟨0, 0, []⟩) ∧
    (depth ≤ maxDepth →
       walkEntries maxDepth depth ldir (truncEntries (maxDepth - depth) ts) =
         walkEntries maxDepth depth ldir ts) ∧
    (allOkEntries (truncEntries maxDepth ts) = true →
       (download_directory maxDepth ldir (RootState.listing ts)).1 = true) := by
  refine ⟨fun hgt => ?_, fun hle => walkEntries_trunc ts maxDepth depth ldir hle, fun hok => ?_⟩
  · constructor <;> simp [walkEntry, hgt]
  · have htr := walkEntries_trunc ts maxDepth 0 ldir (Nat.zero_le maxDepth)
    rw [Nat.sub_zero] at htr
    have hall := walkEntries_allOk (truncEntries maxDepth ts) maxDepth 0 ldir hok
    rw [htr] at hall
    simp [download_directory, hall]

/-- Witness for C5 with `maxDepth = 1` and a remote tree of depth 3
(`a/b/f.txt` plus a top-level file `top.txt`): the walk into `b` at depth
2 is cut, the walk equals the walk of the depth-1 truncation, and the
overall download still reports success. -/
theorem C5_download_depth_bound_witness :
    walkEntry 1 1 "out/a" (RTree.dir "b"
      (RTreeList.cons (RTree.file "f.txt" true) RTreeList.nil)) = ⟨0, 0, []⟩ ∧
    walkEntries 1 0 "out"
      (truncEntries 1
        (RTreeList.cons
          (RTree.dir "a" (RTreeList.cons
            (RTree.dir "b" (RTreeList.cons (RTree.file "f.txt" true) RTreeList.nil))
            RTreeList.nil))
          (RTreeList.cons (RTree.file "top.txt" true) RTreeList.nil))) =
      walkEntries 1 0 "out"
        (RTreeList.cons
          (RTree.dir "a" (RTreeList.cons
            (RTree.dir "b" (RTreeList.cons (RTree.file "f.txt" true) RTreeList.nil))
            RTreeList.nil))
          (RTreeList.cons (RTree.file "top.txt" true) RTreeList.nil)) ∧
    (download_directory 1 "out" (RootState.listing
      (RTreeList.cons
        (RTree.dir "a" (RTreeList.cons
          (RTree.dir "b" (RTreeList.cons (RTree.file "f.txt" true) RTreeList.nil))
          RTreeList.nil))
        (RTreeList.cons (RTree.file "top.txt" true) RTreeList.nil)))).1 = true :=
  ⟨((C5_download_depth_bound 1 1 "out/a" "b"
      (RTreeList.cons (RTree.file "f.txt" true) RTreeList.nil)
      RTreeList.nil).1 (by decide)).1,
   (C5_download_depth_bound 1 0 "out" "b" RTreeList.nil
      (RTreeList.cons
        (RTree.dir "a" (RTreeList.cons
          (RTree.dir "b" (RTreeList.cons (RTree.file "f.txt" true) RTreeList.nil))
          RTreeList.nil))
        (RTreeList.cons (RTree.file "top.txt" true) RTreeList.nil))).2.1 (by decide),
   (C5_download_depth_bound 1 0 "out" "b" RTreeList.nil
      (RTreeList.cons
        (RTree.dir "a" (RTreeList.cons
          (RTree.dir "b" (RTreeList.cons (RTree.file "f.txt" true) RTreeList.nil))
          RTreeList.nil))
        (RTreeList.cons (RTree.file "top.txt" true) RTreeList.nil))).2.2 (by decide)⟩

/-- C6: a `download_directory` call whose initial change-directory into
the remote directory fails returns success immediately with zero files
transferred (and nothing created), while `upload_directory` on a missing
local directory is a hard failure whatever the rest of the environment. -/
theorem C6_missing_remote_dir_nonfatal (maxDepth : Nat) (ldir : String)
    (eo : Bool) (tree : LTreeList) :
    download_directory maxDepth ldir RootState.noDir = (true, ⟨0, 0, []⟩) ∧
    upload_directory false eo tree = false := by
  exact ⟨rfl, rfl⟩

/-! ## `main`, download branch (ftpcmd.py lines 660-717)

Environment of one `--get` invocation that reaches the type probe: the
result of the `cwd(remote_path)` probe (success ⇒ directory), the result
of the `ftp.size(remote_path)` probe (success ⇒ file), the result
`download_file` would return, and the root state `download_directory`
would see.  When both probes fail the code prints "remote path does not
exist" and sets `success = False` and `is_file = None` — but then the
`if is_file:` test treats `None` as falsy, so control still reaches the
`else` branch and `success` is overwritten by `download_directory`'s
result.  The process ends with `sys.exit(0 if success else 1)`. -/
structure GetEnv where
  cwdProbeOk : Bool
  sizeProbeOk : Bool
  fileResult : Bool
  dirRoot : RootState

/-- `sys.exit(0 if success else 1)`. -/
def exitCode (success : Bool) : Nat :=
  if success then 0 else 1

/-- The download (`--get`) branch of `main`, from the type probe to the
process exit code. -/
def main_get (maxDepth : Nat) (ldir : String) (e : GetEnv) : Nat :=
  if e.cwdProbeOk then
    exitCode (download_directory maxDepth ldir e.dirRoot).1
  else if e.sizeProbeOk then
    exitCode e.fileResult
  else
    exitCode (download_directory maxDepth ldir e.dirRoot).1

/-- C9 failing input: a download whose remote path is neither a directory
nor a file (both probes fail — and consequently the change-directory
inside `download_directory` fails too, `RootState.noDir`).  The claim
says this validation failure exits with code 1, but the code exits 0:
the `success = False` assigned at the failed probe is overwritten,
because `is_file = None` falls into the directory branch and
`download_directory` treats the missing remote directory as success.
The final conjuncts record the general exit-code mapping
`sys.exit(0 if success else 1)` that the rest of the claim describes. -/
theorem C9_nonexistent_path_exits_zero (maxDepth : Nat) (ldir : String) (b : Bool) :
    main_get maxDepth ldir ⟨false, false, b, RootState.noDir⟩ = 0 ∧
    exitCode true = 0 ∧ exitCode false = 1 := by
  refine ⟨?_, rfl, rfl⟩
  simp [main_get, download_directory, exitCode]

end Ftpcmd
